import Mathlib

/-!
# Governance service: Proposal/Vote tally engine, shallow embedding

Embedding of `src/server/src/services/governance.service.ts` (class
`GovernanceService`) and of the governance controller. Proposals and votes
live in an external store (Prisma); here the store is an explicit record of
the two tables, and every service method is a pure function threading that
store. Timestamps are naturals (milliseconds). `Prisma.Decimal` values are
exact rationals (`Rat`), matching decimal.js exact decimal arithmetic.
-/

unseal Rat.add Rat.mul Rat.inv

deriving instance DecidableEq for Except

namespace Governance

/-- `GovernanceStatus` enum of the service (matching schema.prisma). -/
inductive GovernanceStatus where
  | OPEN
  | PASSED
  | REJECTED
  | EXECUTED
deriving DecidableEq, Repr

/-- The string value of a `GovernanceStatus`, as interpolated into error messages. -/
def statusToString : GovernanceStatus → String
  | .OPEN => "OPEN"
  | .PASSED => "PASSED"
  | .REJECTED => "REJECTED"
  | .EXECUTED => "EXECUTED"

/-- A row of the `governanceProposal` table, restricted to the fields the
service reads. `endsAt` is the voting deadline timestamp. -/
structure Proposal where
  id : String
  proposerId : String
  endsAt : Nat
  status : GovernanceStatus
deriving DecidableEq, Repr

/-- A row of the `governanceVote` table. `createdAt` is the store-assigned
insertion timestamp; `weight` is the `Prisma.Decimal` column. -/
structure Vote where
  proposalId : String
  voterAddress : String
  vote : String
  weight : Rat
  createdAt : Nat
deriving DecidableEq, Repr

/-- The durable state the service operates on: the two Prisma tables, votes
kept in insertion order. -/
structure Store where
  proposals : List Proposal
  votes : List Vote
deriving DecidableEq, Repr

/-- The errors `castVote` / `getProposalVotes` throw, one constructor per
`throw new Error(...)` site (plus the throw of the `Prisma.Decimal`
constructor on malformed input). `proposalClosed` carries the proposal's
current status, which the thrown message interpolates. -/
inductive GovError where
  | proposalNotFound
  | proposalClosed (status : GovernanceStatus)
  | deadlinePassed
  | invalidWeight
  | duplicateVote
deriving DecidableEq, Repr

/-- The message string of each thrown error, as written in the source. -/
def errMessage : GovError → String
  | .proposalNotFound => "Proposal not found"
  | .proposalClosed s => "Cannot vote on proposal with status: " ++ statusToString s
  | .deadlinePassed => "Voting period has ended"
  | .invalidWeight => "[DecimalError] Invalid argument"
  | .duplicateVote => "User has already voted on this proposal"

/-- Numeric value of a list of decimal digit characters. -/
def digitsToNat (cs : List Char) : Nat :=
  cs.foldl (fun acc c => 10 * acc + (c.toNat - '0'.toNat)) 0

/-- Models `new Prisma.Decimal(s)` (decimal.js): an optional sign, integer
digits and an optional fractional part, parsed exactly; `none` when the
constructor throws on malformed input. Exponent/hex forms accepted by
decimal.js are not exercised by this repository. -/
def parseDecimal (s : String) : Option Rat :=
  let cs := s.toList
  let signed : Int × List Char :=
    match cs with
    | '-' :: rest => (-1, rest)
    | '+' :: rest => (1, rest)
    | _ => (1, cs)
  let intPart := signed.2.takeWhile Char.isDigit
  let rest := signed.2.dropWhile Char.isDigit
  match rest with
  | [] =>
      if intPart.isEmpty then none
      else some (signed.1 * (digitsToNat intPart : Int))
  | '.' :: frac =>
      if frac.all Char.isDigit ∧ ¬(intPart.isEmpty ∧ frac.isEmpty) then
        some ((signed.1 * (digitsToNat intPart * 10 ^ frac.length + digitsToNat frac : Int) : Rat)
              / (10 ^ frac.length : Rat))
      else none
  | _ => none

/-- `prisma.governanceProposal.findUnique({ where: { id } })`. -/
def findProposal (st : Store) (id : String) : Option Proposal :=
  st.proposals.find? (fun p => p.id == id)

/-- `prisma.governanceVote.findFirst({ where: { proposalId, voterAddress } })`. -/
def findExistingVote (st : Store) (proposalId voterAddress : String) : Option Vote :=
  st.votes.find? (fun v => v.proposalId == proposalId && v.voterAddress == voterAddress)

/-- The votes recorded for one proposal (`where: { proposalId }`). -/
def votesFor (st : Store) (proposalId : String) : List Vote :=
  st.votes.filter (fun v => v.proposalId == proposalId)

/-- The `CastVoteRequest` interface; `weight` is the raw decimal string. -/
structure CastVoteRequest where
  proposalId : String
  voterAddress : String
  vote : String
  weight : String
deriving DecidableEq, Repr

/-- The row `governanceVote.create` inserts for a request whose weight
parsed to `w`, stamped with the insertion time. -/
def mkVote (req : CastVoteRequest) (w : Rat) (now : Nat) : Vote :=
  { proposalId := req.proposalId
    voterAddress := req.voterAddress
    vote := req.vote
    weight := w
    createdAt := now }

/-- `GovernanceService.castVote(req)`, at current time `now`. Each `throw`
becomes an `Except.error`; success returns the updated store and the
created row. The `Prisma.Decimal` constructor runs while building the
`create` payload, so a malformed weight throws before any insertion; a
weight that parses — positive or not — is stored unchecked. -/
def castVote (st : Store) (now : Nat) (req : CastVoteRequest) :
    Except GovError (Store × Vote) :=
  match findProposal st req.proposalId with
  | none => .error .proposalNotFound
  | some proposal =>
    if proposal.status ≠ GovernanceStatus.OPEN then
      .error (.proposalClosed proposal.status)
    else if now > proposal.endsAt then
      .error .deadlinePassed
    else
      match findExistingVote st req.proposalId req.voterAddress with
      | some _ => .error .duplicateVote
      | none =>
        match parseDecimal req.weight with
        | none => .error .invalidWeight
        | some w =>
          .ok ({ st with votes := st.votes ++ [mkVote req w now] }, mkVote req w now)

/-- The store visible after a `castVote` result: the updated store on
success, the untouched store when the call threw. -/
def storeAfter (st : Store) (r : Except GovError (Store × Vote)) : Store :=
  match r with
  | .ok (st', _) => st'
  | .error _ => st

/-- The pagination options object of `getProposalVotes` (`options?.limit`,
`options?.offset`). -/
structure VoteQueryOptions where
  limit : Option Nat := none
  offset : Option Nat := none
deriving DecidableEq, Repr

/-- The record `getProposalVotes` returns. -/
structure VotesPage where
  votes : List Vote
  total : Nat
  limit : Nat
  offset : Nat
deriving DecidableEq, Repr

/-- `GovernanceService.getProposalVotes(proposalId, options)`: throws when
the proposal is absent, otherwise pages the proposal's votes with
`limit ?? 100` and `offset ?? 0` while `total` counts them all. The store
keeps votes in insertion order and `castVote` stamps `createdAt` with the
insertion time, so `orderBy createdAt desc` is the reverse of the filtered
list. -/
def getProposalVotes (st : Store) (proposalId : String)
    (options : VoteQueryOptions) : Except GovError VotesPage :=
  match findProposal st proposalId with
  | none => .error .proposalNotFound
  | some _ =>
    let limit := options.limit.getD 100
    let offset := options.offset.getD 0
    let rows := (votesFor st proposalId).reverse
    .ok { votes := (rows.drop offset).take limit
          total := (votesFor st proposalId).length
          limit := limit
          offset := offset }

/-- Count of proposals with a given status
(`governanceProposal.count({ where: { status } })`). -/
def countByStatus (st : Store) (s : GovernanceStatus) : Nat :=
  (st.proposals.filter (fun p => p.status == s)).length

/-- The `proposals` block of the metrics payload. -/
structure MetricsProposals where
  total : Nat
  openCount : Nat
  passed : Nat
  rejected : Nat
  executed : Nat
deriving DecidableEq, Repr

/-- The `voting` block of the metrics payload. `avgVoteWeight` is the exact
decimal average the store aggregate reports (`?? 0` when no votes);
`participationRate` is the JS number after `Number(rate.toFixed(2))`. -/
structure MetricsVoting where
  totalVotes : Nat
  avgVoteWeight : Rat
  participationRate : Rat
deriving DecidableEq, Repr

/-- The value `getMetrics` returns. -/
structure Metrics where
  proposals : MetricsProposals
  voting : MetricsVoting
deriving DecidableEq, Repr

/-- Base-2 logarithm by structural recursion on a fuel bound
(`log2Aux n n` is `⌊log₂ n⌋` for `n ≥ 1`, since `⌊log₂ n⌋ ≤ n`). -/
def log2Aux : Nat → Nat → Nat
  | 0, _ => 0
  | fuel + 1, n => if 2 ≤ n then log2Aux fuel (n / 2) + 1 else 0

/-- `⌊log₂ n⌋` for `n ≥ 1` (0 at 0). -/
def natLog2 (n : Nat) : Nat := log2Aux n n

/-- `⌊log₂ (a / b)⌋` for `a, b ≥ 1`: the candidate `⌊log₂ a⌋ - ⌊log₂ b⌋`
over-estimates by at most one, so one exact integer comparison settles
it. -/
def ilog2 (a b : Nat) : Int :=
  let k := natLog2 a
  let d := natLog2 b
  if d ≤ k then
    (if b * 2 ^ (k - d) ≤ a then (k - d : Int) else (k - d : Int) - 1)
  else
    (if b ≤ a * 2 ^ (d - k) then -((d - k : Nat) : Int) else -((d - k : Nat) : Int) - 1)

/-- `a / b` (`b ≥ 1`) rounded to the nearest integer, ties to even — the
IEEE-754 default rounding applied to an exact integer quotient. -/
def rdiv (a b : Nat) : Nat :=
  let q := a / b
  let r := a % b
  if 2 * r < b then q
  else if b < 2 * r then q + 1
  else if q % 2 = 0 then q else q + 1

/-- The IEEE-754 binary64 value of the JS division `a / b` of two natural
counts: the exact quotient rounded to 53 significand bits, round to
nearest, ties to even. Counts stay far inside the normal range, so
subnormals, overflow and NaN do not arise (`b = 0` is unreachable behind
the `totalProposals > 0` guard). -/
def float64Div (a b : Nat) : Rat :=
  if a = 0 ∨ b = 0 then 0
  else
    let s : Int := 52 - ilog2 a b
    if 0 ≤ s then
      (rdiv (a * 2 ^ s.toNat) b : Rat) / (2 ^ s.toNat : Rat)
    else
      ((rdiv a (b * 2 ^ (-s).toNat) : Rat)) * ((2 ^ (-s).toNat : Nat) : Rat)

/-- Floor of a rational as an integer (`q.den` is always positive, so
flooring division of the numerator by the denominator is the floor). -/
def ratFloor (q : Rat) : Int := q.num.fdiv q.den

/-- `Number(x.toFixed(2))` for a non-negative binary64 value `x`, given as
the exact (dyadic) rational the double denotes: ECMA-262 toFixed picks the
integer n with n/100 closest to x, ties to the larger n — half-up for
non-negative x. The result stands for the double the returned JSON number
prints as, identified with its decimal value n/100. -/
def toFixed2 (q : Rat) : Rat :=
  ((ratFloor (q * 100 + 1 / 2)) : Rat) / 100

/-- `GovernanceService.getMetrics()`: per-status proposal counts, total vote
count, average vote weight, and participation rate
`totalProposals > 0 ? totalVotes / totalProposals : 0` — a binary64
division — reported through `Number(rate.toFixed(2))`. -/
def getMetrics (st : Store) : Metrics :=
  let totalProposals := st.proposals.length
  let totalVotes := st.votes.length
  let avgWeight : Rat :=
    if st.votes.length > 0 then
      ((st.votes.map Vote.weight).sum) / (st.votes.length : Rat)
    else 0
  let participationRate : Rat :=
    if totalProposals > 0 then float64Div totalVotes totalProposals else 0
  { proposals :=
      { total := totalProposals
        openCount := countByStatus st .OPEN
        passed := countByStatus st .PASSED
        rejected := countByStatus st .REJECTED
        executed := countByStatus st .EXECUTED }
    voting :=
      { totalVotes := totalVotes
        avgVoteWeight := avgWeight
        participationRate := toFixed2 participationRate } }

/-! ## Tally & Resolution Engine (spec §4.3)

The repository's service file has no `evaluate`; the engine is modelled from
the spec. -/

/-- A vote's tri-state choice as the tally engine reads it. -/
inductive VoteChoice where
  | voteFor
  | voteAgainst
  | abstain
deriving DecidableEq, Repr

/-- A recorded vote as the tally engine reads it: a choice and a positive
decimal weight. -/
structure TallyVote where
  choice : VoteChoice
  weight : Rat
deriving DecidableEq, Repr

/-- A proposal as the tally engine reads it: current status, quorum
threshold and deadline timestamp. -/
structure TallyProposal where
  status : GovernanceStatus
  quorum : Rat
  deadline : Nat
deriving DecidableEq, Repr

/-- Sum of the weights of the votes matching a choice. -/
def weightOf (votes : List TallyVote) (c : VoteChoice) : Rat :=
  ((votes.filter (fun v => v.choice == c)).map TallyVote.weight).sum

/-- Total participating weight: every recorded weight, abstain included. -/
def totalWeight (votes : List TallyVote) : Rat :=
  (votes.map TallyVote.weight).sum

/-- Modelled from the spec: `evaluate(proposalId)` of the Tally &
Resolution Engine (§4.3), absent from the service source. A non-OPEN
proposal is returned unchanged (idempotent no-op); before the deadline the
status stays OPEN; once the deadline has passed the decision rule applies:
REJECTED below quorum, PASSED when quorum is met and for-weight exceeds
against-weight, REJECTED when quorum is met and for-weight ≤
against-weight. -/
def evaluate (p : TallyProposal) (votes : List TallyVote) (now : Nat) :
    GovernanceStatus :=
  if p.status ≠ GovernanceStatus.OPEN then p.status
  else if now > p.deadline then
    if totalWeight votes < p.quorum then .REJECTED
    else if weightOf votes .voteFor > weightOf votes .voteAgainst then .PASSED
    else .REJECTED
  else .OPEN

/-! ## Interleaved execution of two concurrent `castVote` calls

`castVote` awaits three separate store operations: the proposal
`findUnique`, the duplicate `findFirst`, and the `create`. Between any two
of them another request may run. Each in-flight call is a small state
machine over those operations; a schedule decides which call performs the
next store operation. -/

/-- How far one in-flight `castVote` call has progressed. -/
inductive CallState where
  /-- about to run `governanceProposal.findUnique` and the status/deadline checks -/
  | start
  /-- checks passed; about to run the duplicate `findFirst` -/
  | checked
  /-- duplicate check found nothing; about to run `governanceVote.create` -/
  | inserting
  /-- the call returned -/
  | finished (r : Except GovError Vote)
deriving Repr

/-- Whether an in-flight call has returned successfully. -/
def CallState.succeeded : CallState → Bool
  | .finished (.ok _) => true
  | _ => false

/-- One store operation of one in-flight `castVote` call, against the store
as it is at that moment. -/
def castVoteStep (st : Store) (now : Nat) (req : CastVoteRequest) :
    CallState → CallState × Store
  | .start =>
    match findProposal st req.proposalId with
    | none => (.finished (.error .proposalNotFound), st)
    | some proposal =>
      if proposal.status ≠ GovernanceStatus.OPEN then
        (.finished (.error (.proposalClosed proposal.status)), st)
      else if now > proposal.endsAt then
        (.finished (.error .deadlinePassed), st)
      else (.checked, st)
  | .checked =>
    match findExistingVote st req.proposalId req.voterAddress with
    | some _ => (.finished (.error .duplicateVote), st)
    | none => (.inserting, st)
  | .inserting =>
    match parseDecimal req.weight with
    | none => (.finished (.error .invalidWeight), st)
    | some w =>
      (.finished (.ok (mkVote req w now)),
       { st with votes := st.votes ++ [mkVote req w now] })
  | .finished r => (.finished r, st)

/-- Two concurrent `castVote` calls for the same request, driven by a
schedule: `false` steps the first call, `true` the second. -/
def runTwo (st : Store) (now : Nat) (req : CastVoteRequest)
    (a b : CallState) : List Bool → Store × CallState × CallState
  | [] => (st, a, b)
  | false :: rest =>
    let (a', st') := castVoteStep st now req a
    runTwo st' now req a' b rest
  | true :: rest =>
    let (b', st') := castVoteStep st now req b
    runTwo st' now req a b' rest

/-! ## Sequential executions and the one-vote-per-pair invariant -/

/-- At most one recorded Vote per (proposal, voter) pair. -/
def atMostOnePerPair (st : Store) : Prop :=
  st.votes.Pairwise
    (fun a b => ¬(a.proposalId = b.proposalId ∧ a.voterAddress = b.voterAddress))

instance (st : Store) : Decidable (atMostOnePerPair st) := by
  unfold atMostOnePerPair
  exact List.instDecidablePairwise _

/-- A sequential execution of `castVote` calls: each call runs to completion
against the store the previous one left. -/
def runVotes (st : Store) : List (Nat × CastVoteRequest) → Store
  | [] => st
  | (now, req) :: rest => runVotes (storeAfter st (castVote st now req)) rest

/-- Inversion of a successful `castVote`: the preconditions that held on the
starting store and the exact shape of the update. -/
theorem castVote_ok_inv (st : Store) (now : Nat) (req : CastVoteRequest)
    (st' : Store) (v : Vote) (h : castVote st now req = .ok (st', v)) :
    st'.proposals = st.proposals ∧ st'.votes = st.votes ++ [v] ∧
    v = mkVote req v.weight now ∧
    (∃ p, findProposal st req.proposalId = some p ∧
      p.status = GovernanceStatus.OPEN ∧ now ≤ p.endsAt) ∧
    findExistingVote st req.proposalId req.voterAddress = none ∧
    parseDecimal req.weight = some v.weight := by
  unfold castVote at h
  split at h
  · cases h
  next p hp =>
    split at h
    · cases h
    next hs =>
      split at h
      · cases h
      next hd =>
        split at h
        · cases h
        next hv =>
          split at h
          · cases h
          next w hw =>
            simp only [Except.ok.injEq, Prod.mk.injEq] at h
            obtain ⟨h1, h2⟩ := h
            subst h1; subst h2
            exact ⟨rfl, rfl, rfl, ⟨p, hp, not_not.mp hs, Nat.not_lt.mp hd⟩, hv, hw⟩

/-- A successful `castVote` appends a vote for a pair that had none, so the
one-vote-per-pair invariant survives every call. -/
theorem castVote_preserves_atMostOnePerPair (st : Store) (now : Nat)
    (req : CastVoteRequest) (h : atMostOnePerPair st) :
    atMostOnePerPair (storeAfter st (castVote st now req)) := by
  cases hr : castVote st now req with
  | error e => simpa [storeAfter] using h
  | ok pr =>
    obtain ⟨st', v⟩ := pr
    obtain ⟨-, hvotes, hv, -, hnone, -⟩ := castVote_ok_inv st now req st' v hr
    unfold atMostOnePerPair at h ⊢
    simp only [storeAfter]
    rw [hvotes, List.pairwise_append]
    refine ⟨h, List.pairwise_singleton _ _, ?_⟩
    intro a ha b hb
    simp only [List.mem_singleton] at hb
    subst hb
    unfold findExistingVote at hnone
    rw [List.find?_eq_none] at hnone
    have hne := hnone a ha
    simp only [Bool.and_eq_true, beq_iff_eq] at hne
    rw [hv]
    simpa [mkVote] using hne

/-- The invariant is preserved along any sequential execution. -/
theorem runVotes_preserves_atMostOnePerPair (calls : List (Nat × CastVoteRequest))
    (st : Store) (h : atMostOnePerPair st) : atMostOnePerPair (runVotes st calls) := by
  induction calls generalizing st with
  | nil => simpa [runVotes] using h
  | cons c rest ih =>
    obtain ⟨now, req⟩ := c
    exact ih _ (castVote_preserves_atMostOnePerPair st now req h)

/-! ## Concrete fixtures -/

/-- An OPEN proposal with deadline 100. -/
def pOpen : Proposal :=
  { id := "p1", proposerId := "u1", endsAt := 100, status := .OPEN }

/-- A vote already recorded for (p1, alice). -/
def vAlice : Vote :=
  { proposalId := "p1", voterAddress := "alice", vote := "YES", weight := 10, createdAt := 10 }

/-- A store holding the open proposal and alice's existing vote. -/
def stDup : Store := { proposals := [pOpen], votes := [vAlice] }

/-- A store holding only the open proposal, no votes. -/
def stFresh : Store := { proposals := [pOpen], votes := [] }

/-- Alice votes again on p1. -/
def reqAlice : CastVoteRequest :=
  { proposalId := "p1", voterAddress := "alice", vote := "NO", weight := "5" }

/-! ## Claim theorems -/

/-- C1: on an existing OPEN proposal whose deadline has not passed, a
`castVote` for a (proposal, voter) pair that already has a Vote fails with
the duplicate-vote error and leaves the store unchanged, and the
at-most-one-Vote-per-pair invariant holds after any sequential execution of
`castVote` calls. -/
theorem castVote_duplicate_rejected (st : Store) (now : Nat)
    (req : CastVoteRequest) (p : Proposal) (v0 : Vote)
    (calls : List (Nat × CastVoteRequest))
    (hp : findProposal st req.proposalId = some p)
    (hopen : p.status = GovernanceStatus.OPEN)
    (hdl : now ≤ p.endsAt)
    (hdup : findExistingVote st req.proposalId req.voterAddress = some v0)
    (hinv : atMostOnePerPair st) :
    castVote st now req = .error .duplicateVote ∧
    storeAfter st (castVote st now req) = st ∧
    atMostOnePerPair (runVotes st calls) := by
  have herr : castVote st now req = .error .duplicateVote := by
    simp [castVote, hp, hopen, hdup, Nat.not_lt.mpr hdl]
  exact ⟨herr, by rw [herr]; rfl, runVotes_preserves_atMostOnePerPair calls st hinv⟩

/-- Witness for C1 at a concrete store: alice already voted on p1, her
second vote at time 50 is rejected as a duplicate, and running a further
call keeps the invariant. -/
theorem castVote_duplicate_rejected_witness :
    castVote stDup 50 reqAlice = .error .duplicateVote ∧
    storeAfter stDup (castVote stDup 50 reqAlice) = stDup ∧
    atMostOnePerPair (runVotes stDup
      [(60, { proposalId := "p1", voterAddress := "bob", vote := "YES", weight := "3" })]) :=
  castVote_duplicate_rejected stDup 50 reqAlice pOpen vAlice
    [(60, { proposalId := "p1", voterAddress := "bob", vote := "YES", weight := "3" })]
    (by decide) (by decide) (by decide) (by decide) (by decide)

/-- C2: the duplicate check and the insertion are two separate store
operations (`findFirst`, then `create`), so two concurrent `castVote`
calls for the same (proposal, voter) pair can interleave read-read-
write-write: under the schedule that runs both duplicate checks before
either insert, both calls succeed and the store ends with two Votes for
the pair — refuting the claim that exactly one succeeds and the pair stays
unique. -/
theorem castVote_race_two_votes :
    ((runTwo stFresh 50 reqAlice .start .start
        [false, true, false, true, false, true]).2.1.succeeded = true) ∧
    ((runTwo stFresh 50 reqAlice .start .start
        [false, true, false, true, false, true]).2.2.succeeded = true) ∧
    ¬ atMostOnePerPair (runTwo stFresh 50 reqAlice .start .start
        [false, true, false, true, false, true]).1 := by
  decide

/-- C3: for an OPEN proposal whose deadline has passed, `evaluate` resolves
REJECTED when total participating weight is below the quorum threshold,
PASSED when quorum is met and for-weight strictly exceeds against-weight,
and REJECTED when quorum is met and for-weight ≤ against-weight. -/
theorem evaluate_decision_rule (p : TallyProposal) (votes : List TallyVote)
    (now : Nat)
    (hopen : p.status = GovernanceStatus.OPEN)
    (hdl : p.deadline < now) :
    (totalWeight votes < p.quorum →
      evaluate p votes now = GovernanceStatus.REJECTED) ∧
    (p.quorum ≤ totalWeight votes →
      weightOf votes .voteAgainst < weightOf votes .voteFor →
      evaluate p votes now = GovernanceStatus.PASSED) ∧
    (p.quorum ≤ totalWeight votes →
      weightOf votes .voteFor ≤ weightOf votes .voteAgainst →
      evaluate p votes now = GovernanceStatus.REJECTED) := by
  refine ⟨fun hq => ?_, fun hq hfa => ?_, fun hq hfa => ?_⟩
  · simp [evaluate, hopen, hdl, hq]
  · simp [evaluate, hopen, hdl, not_lt.mpr hq, hfa]
  · simp [evaluate, hopen, hdl, not_lt.mpr hq, not_lt.mpr hfa]

/-- An open tally proposal with quorum 100 and deadline 100. -/
def tpQuorum : TallyProposal := { status := .OPEN, quorum := 100, deadline := 100 }

/-- The spec's scenario votes: 40 for, 40 for, 30 against. -/
def tvScenario : List TallyVote :=
  [⟨.voteFor, 40⟩, ⟨.voteFor, 40⟩, ⟨.voteAgainst, 30⟩]

/-- Witness for C3 at the spec's scenario: total 110 ≥ quorum 100 and
for-weight 80 > against-weight 30 after the deadline yield PASSED. -/
theorem evaluate_decision_rule_witness :
    evaluate tpQuorum tvScenario 200 = GovernanceStatus.PASSED :=
  (evaluate_decision_rule tpQuorum tvScenario 200 (by decide) (by decide)).2.1
    (by decide) (by decide)

/-- carol votes with the parseable but negative weight "-1". -/
def reqNeg : CastVoteRequest :=
  { proposalId := "p1", voterAddress := "carol", vote := "NO", weight := "-1" }

/-- The store after carol's negative-weight vote is accepted. -/
def stNegAfter : Store := { proposals := [pOpen], votes := [mkVote reqNeg (-1) 50] }

/-- C4 counterexample: `castVote` with weight "-1" on an open proposal
before its deadline succeeds and persists a Vote whose weight is not
positive — a Vote can be fully persisted without precondition 4 (positive
weight) holding, refuting the all-five-preconditions disjunct. -/
theorem castVote_persists_nonpositive_weight :
    castVote stFresh 50 reqNeg = Except.ok (stNegAfter, mkVote reqNeg (-1) 50) ∧
    (mkVote reqNeg (-1) 50).weight ≤ 0 := by
  decide

/-- C4 (amended): whenever `castVote` fails with any error the store is
unchanged; on success exactly the new Vote is appended and preconditions
1, 2, 3 and 5 (proposal exists, OPEN, deadline not passed, no prior vote
for the pair) held on the starting store — weight positivity is not
enforced. -/
theorem castVote_failure_atomic (st : Store) (now : Nat) (req : CastVoteRequest) :
    (∀ e, castVote st now req = .error e →
      storeAfter st (castVote st now req) = st) ∧
    (∀ st' v, castVote st now req = .ok (st', v) →
      st'.proposals = st.proposals ∧ st'.votes = st.votes ++ [v] ∧
      (∃ p, findProposal st req.proposalId = some p ∧
        p.status = GovernanceStatus.OPEN ∧ now ≤ p.endsAt) ∧
      findExistingVote st req.proposalId req.voterAddress = none) := by
  constructor
  · intro e he; rw [he]; rfl
  · intro st' v h
    obtain ⟨h1, h2, -, h4, h5, -⟩ := castVote_ok_inv st now req st' v h
    exact ⟨h1, h2, h4, h5⟩

/-- The store after alice's first successful vote on the fresh store. -/
def stAfterAlice : Store := { proposals := [pOpen], votes := [mkVote reqAlice 5 50] }

/-- Witness for C4 at a concrete success: alice's first vote appends exactly
one Vote and preconditions 1, 2, 3 and 5 held. -/
theorem castVote_failure_atomic_witness :
    stAfterAlice.proposals = stFresh.proposals ∧
    stAfterAlice.votes = stFresh.votes ++ [mkVote reqAlice 5 50] ∧
    (∃ p, findProposal stFresh reqAlice.proposalId = some p ∧
      p.status = GovernanceStatus.OPEN ∧ (50 : Nat) ≤ p.endsAt) ∧
    findExistingVote stFresh reqAlice.proposalId reqAlice.voterAddress = none :=
  (castVote_failure_atomic stFresh 50 reqAlice).2 stAfterAlice
    (mkVote reqAlice 5 50) (by decide)

/-- C5: on an existing OPEN proposal, a `castVote` at a time ≤ the deadline
never fails with the deadline error, and a `castVote` strictly after the
deadline fails with it and persists nothing. -/
theorem castVote_deadline_check (st : Store) (now : Nat)
    (req : CastVoteRequest) (p : Proposal)
    (hp : findProposal st req.proposalId = some p)
    (hopen : p.status = GovernanceStatus.OPEN) :
    (now ≤ p.endsAt → castVote st now req ≠ .error .deadlinePassed) ∧
    (p.endsAt < now → castVote st now req = .error .deadlinePassed ∧
      storeAfter st (castVote st now req) = st) := by
  constructor
  · intro hle hcon
    simp only [castVote, hp] at hcon
    rw [if_neg (by simp [hopen]), if_neg (Nat.not_lt.mpr hle)] at hcon
    cases hv : findExistingVote st req.proposalId req.voterAddress <;>
      simp [hv] at hcon
    cases hw : parseDecimal req.weight <;> simp [hw] at hcon
  · intro hgt
    have herr : castVote st now req = .error .deadlinePassed := by
      simp [castVote, hp, hopen, hgt]
    exact ⟨herr, by rw [herr]; rfl⟩

/-- Witness for C5: at time 150, past the deadline 100, alice's vote fails
with the deadline error and the store is unchanged. -/
theorem castVote_deadline_check_witness :
    castVote stFresh 150 reqAlice = .error .deadlinePassed ∧
    storeAfter stFresh (castVote stFresh 150 reqAlice) = stFresh :=
  (castVote_deadline_check stFresh 150 reqAlice pOpen (by decide) (by decide)).2
    (by decide)

/-- dave votes with the parseable weight "0". -/
def reqZero : CastVoteRequest :=
  { proposalId := "p1", voterAddress := "dave", vote := "YES", weight := "0" }

/-- The store after dave's zero-weight vote is accepted. -/
def stZeroAfter : Store := { proposals := [pOpen], votes := [mkVote reqZero 0 50] }

/-- C6 counterexample: the weight "0" does not parse to a strictly positive
decimal, yet `castVote` succeeds and inserts the Vote — no positivity check
exists, so the call does not fail with the invalid-weight error. -/
theorem castVote_zero_weight_accepted :
    castVote stFresh 50 reqZero = Except.ok (stZeroAfter, mkVote reqZero 0 50) ∧
    (mkVote reqZero 0 50).weight = 0 := by
  decide

/-- C6 (amended): a weight the Decimal constructor cannot parse makes
`castVote` throw with nothing inserted (when checks 1, 2, 3 and 5 pass);
a weight that parses — zero and negative included — is accepted and the
Vote is inserted. -/
theorem castVote_weight_validation (st : Store) (now : Nat)
    (req : CastVoteRequest) (p : Proposal)
    (hp : findProposal st req.proposalId = some p)
    (hopen : p.status = GovernanceStatus.OPEN)
    (hdl : now ≤ p.endsAt)
    (hnone : findExistingVote st req.proposalId req.voterAddress = none) :
    (parseDecimal req.weight = none →
      castVote st now req = .error .invalidWeight ∧
      storeAfter st (castVote st now req) = st) ∧
    (∀ w, parseDecimal req.weight = some w →
      castVote st now req =
        .ok ({ st with votes := st.votes ++ [mkVote req w now] }, mkVote req w now)) := by
  constructor
  · intro hw
    have herr : castVote st now req = .error .invalidWeight := by
      simp [castVote, hp, hopen, hnone, hw, Nat.not_lt.mpr hdl]
    exact ⟨herr, by rw [herr]; rfl⟩
  · intro w hw
    simp [castVote, hp, hopen, hnone, hw, Nat.not_lt.mpr hdl]

/-- erin votes with the malformed weight "abc". -/
def reqBad : CastVoteRequest :=
  { proposalId := "p1", voterAddress := "erin", vote := "YES", weight := "abc" }

/-- Witness for C6 (amended): the malformed weight "abc" is rejected with
nothing inserted. -/
theorem castVote_weight_validation_witness :
    castVote stFresh 50 reqBad = .error .invalidWeight ∧
    storeAfter stFresh (castVote stFresh 50 reqBad) = stFresh :=
  (castVote_weight_validation stFresh 50 reqBad pOpen
    (by decide) (by decide) (by decide) (by decide)).1 (by decide)

/-- C7: voting on an existing proposal whose status is not OPEN fails with
the closed-proposal error, whose message reports the proposal's current
status, and the store is unchanged. -/
theorem castVote_closed_proposal (st : Store) (now : Nat)
    (req : CastVoteRequest) (p : Proposal)
    (hp : findProposal st req.proposalId = some p)
    (hclosed : p.status ≠ GovernanceStatus.OPEN) :
    castVote st now req = .error (.proposalClosed p.status) ∧
    errMessage (.proposalClosed p.status) =
      "Cannot vote on proposal with status: " ++ statusToString p.status ∧
    storeAfter st (castVote st now req) = st := by
  have herr : castVote st now req = .error (.proposalClosed p.status) := by
    simp [castVote, hp, hclosed]
  exact ⟨herr, rfl, by rw [herr]; rfl⟩

/-- A PASSED proposal. -/
def pPassed : Proposal :=
  { id := "p2", proposerId := "u1", endsAt := 100, status := .PASSED }

/-- A store holding only the PASSED proposal. -/
def stPassed : Store := { proposals := [pPassed], votes := [] }

/-- alice votes on the PASSED proposal. -/
def reqPassed : CastVoteRequest :=
  { proposalId := "p2", voterAddress := "alice", vote := "YES", weight := "5" }

/-- Witness for C7: voting on the PASSED proposal fails with the
closed-proposal error carrying PASSED, and the store is unchanged. -/
theorem castVote_closed_proposal_witness :
    castVote stPassed 50 reqPassed = .error (.proposalClosed pPassed.status) ∧
    errMessage (.proposalClosed pPassed.status) =
      "Cannot vote on proposal with status: " ++ statusToString pPassed.status ∧
    storeAfter stPassed (castVote stPassed 50 reqPassed) = stPassed :=
  castVote_closed_proposal stPassed 50 reqPassed pPassed (by decide) (by decide)

/-- A store with three proposals and one vote. -/
def stThree : Store :=
  { proposals := [pOpen,
      { id := "p2", proposerId := "u1", endsAt := 100, status := .OPEN },
      { id := "p3", proposerId := "u1", endsAt := 100, status := .OPEN }]
    votes := [vAlice] }

/-- Validation of the binary64 division model at rounding boundaries
toFixed is sensitive to: the doubles nearest 3/200 and 7/40 lie just below
0.015 and 0.175, so those rates report as 0.01 and 0.17, while the exactly
representable 1/8 rounds up to 0.13 under toFixed's larger-n tie rule. -/
theorem float64Div_boundary_values :
    float64Div 3 200 = (1080863910568919 : Rat) / 72057594037927936 ∧
    toFixed2 (float64Div 3 200) = 1 / 100 ∧
    toFixed2 (float64Div 7 40) = 17 / 100 ∧
    toFixed2 (float64Div 1 8) = 13 / 100 := by
  decide

/-- C8 counterexample: with 3 proposals and 1 vote the binary64 quotient
rounds to the returned participation rate 0.33, which differs from the
exact ratio 1/3 — the returned value is not equal to
totalVotes / totalProposals. -/
theorem getMetrics_participation_rounded :
    (getMetrics stThree).voting.participationRate = 33 / 100 ∧
    (stThree.votes.length : Rat) / (stThree.proposals.length : Rat) = 1 / 3 ∧
    (33 / 100 : Rat) ≠ 1 / 3 := by
  decide

/-- C8 (amended): when at least one proposal exists the returned
participation rate is the binary64 quotient totalVotes / totalProposals
rounded to two decimal places by toFixed — in general not the exact
ratio; it is 0 when no proposals exist; no division error can occur. -/
theorem getMetrics_participation_rate (st : Store) :
    (0 < st.proposals.length →
      (getMetrics st).voting.participationRate =
        toFixed2 (float64Div st.votes.length st.proposals.length)) ∧
    (st.proposals.length = 0 →
      (getMetrics st).voting.participationRate = 0) := by
  constructor
  · intro h
    simp [getMetrics, h]
  · intro h
    simp [getMetrics, h]
    decide

/-- Witness for C8 (amended) on the 3-proposal 1-vote store. -/
theorem getMetrics_participation_rate_witness :
    (getMetrics stThree).voting.participationRate =
      toFixed2 (float64Div stThree.votes.length stThree.proposals.length) :=
  (getMetrics_participation_rate stThree).1 (by decide)

/-- Every proposal carries exactly one of the four statuses, so the four
per-status filters partition the proposal list. -/
theorem length_eq_sum_status_counts (l : List Proposal) :
    l.length = (l.filter (fun p => p.status == GovernanceStatus.OPEN)).length +
      (l.filter (fun p => p.status == GovernanceStatus.PASSED)).length +
      (l.filter (fun p => p.status == GovernanceStatus.REJECTED)).length +
      (l.filter (fun p => p.status == GovernanceStatus.EXECUTED)).length := by
  induction l with
  | nil => rfl
  | cons p l ih =>
    cases hs : p.status <;> simp [List.filter_cons, hs] <;> omega

/-- C9: the metrics object satisfies
total = open + passed + rejected + executed. -/
theorem getMetrics_status_partition (st : Store) :
    (getMetrics st).proposals.total =
      (getMetrics st).proposals.openCount + (getMetrics st).proposals.passed +
        (getMetrics st).proposals.rejected + (getMetrics st).proposals.executed := by
  simp only [getMetrics, countByStatus]
  exact length_eq_sum_status_counts st.proposals

/-- C10: `getProposalVotes` on a missing proposal fails with the not-found
error; on an existing proposal it returns `total` equal to the full count of
that proposal's votes for any limit/offset options, with the pagination
parameters defaulting to 100 and 0 and echoed back in the returned
record. -/
theorem getProposalVotes_total_and_defaults (st : Store) (proposalId : String)
    (options : VoteQueryOptions) :
    (findProposal st proposalId = none →
      getProposalVotes st proposalId options = .error .proposalNotFound) ∧
    (∀ p, findProposal st proposalId = some p →
      getProposalVotes st proposalId options =
        .ok { votes := (((votesFor st proposalId).reverse).drop
                  (options.offset.getD 0)).take (options.limit.getD 100)
              total := (votesFor st proposalId).length
              limit := options.limit.getD 100
              offset := options.offset.getD 0 }) := by
  constructor
  · intro h
    simp [getProposalVotes, h]
  · intro p h
    simp [getProposalVotes, h]

/-- Witness for C10: with no options the page returns alice's single vote,
total 1, limit 100 and offset 0. -/
theorem getProposalVotes_total_and_defaults_witness :
    getProposalVotes stDup "p1" {} =
      .ok { votes := [vAlice], total := 1, limit := 100, offset := 0 } :=
  (getProposalVotes_total_and_defaults stDup "p1" {}).2 pOpen (by decide)

end Governance


